import Mathlib

/-!
# Mars Rover — verification of the command engine and the input parser

Shallow embedding of the TypeScript sources:

* `src/src/rover/engine.ts` — the command-execution engine (`executeCommands`);
* `src/lib/rover/parser.ts`  — the input parser (`parseInput` and helpers);
* `src/lib/rover/format.ts`  — the output formatter (`formatOutput`).

JavaScript numbers that reach the engine and parser are integers (the parser
only accepts integral values), so coordinates are embedded as `Int`.  The
platform's `Number(string)` conversion is modelled by `jsStringToNumber`,
implemented after the ECMAScript `StringNumericLiteral` grammar with exact
scaled-decimal values `mantissa * 10 ^ exponent` (IEEE-754 rounding of the
final value is not modelled; for the integrality checks performed by the
parser this agrees with the platform on all inputs whose value is exactly
representable).
-/

namespace MarsRover

/-- The four compass headings (`Direction` in `types.ts`). -/
inductive Direction where
  | N : Direction
  | E : Direction
  | S : Direction
  | W : Direction
deriving DecidableEq, Repr

/-- An (x, y) grid position (`Position` in `types.ts`). -/
structure Position where
  x : Int
  y : Int
deriving DecidableEq, Repr

/-- Inclusive plateau bounds (`Plateau` in `types.ts`). -/
structure Plateau where
  maxX : Int
  maxY : Int
deriving DecidableEq, Repr

/-- A rover's complete snapshot (`RoverState` in `types.ts`). -/
structure RoverState where
  position : Position
  direction : Direction
deriving DecidableEq, Repr

/-- Table `DIRECTIONS` from `engine.ts`: direction encoding 0=N, 1=E, 2=S, 3=W. -/
def DIRECTIONS : List Direction := [.N, .E, .S, .W]

/-- Map `DIR_TO_NUM` from `engine.ts`: map direction to numerical encoding. -/
def DIR_TO_NUM : Direction → Nat
  | .N => 0
  | .E => 1
  | .S => 2
  | .W => 3

/-- Table `DELTAS` from `engine.ts`: movement deltas `[dx, dy]` for each encoded
direction (index 0=N, 1=E, 2=S, 3=W). -/
def DELTAS : List (Int × Int) := [(0, 1), (1, 0), (0, -1), (-1, 0)]

/-- One iteration of the command loop in `executeCommands` (`engine.ts`,
lines 38–56).  The loop state is the triple `(x, y, dirNum)`. -/
def execStep (plateau : Plateau) (s : Int × Int × Nat) (cmd : Char) :
    Int × Int × Nat :=
  if cmd = 'L' then
    (s.1, s.2.1, (s.2.2 + 3) % 4)
  else if cmd = 'R' then
    (s.1, s.2.1, (s.2.2 + 1) % 4)
  else if cmd = 'M' then
    let d := DELTAS.getD s.2.2 (0, 0)
    let newX := s.1 + d.1
    let newY := s.2.1 + d.2
    if 0 ≤ newX ∧ newX ≤ plateau.maxX ∧ 0 ≤ newY ∧ newY ≤ plateau.maxY then
      (newX, newY, s.2.2)
    else
      s
  else
    s

/-- Embedding of `executeCommands` from `engine.ts`: fold the command characters over the
`(x, y, dirNum)` triple seeded from the start state, then rebuild a
`RoverState` via the `DIRECTIONS` table (`dirNum` always stays below 4, so
the `getD` default is never used). -/
def executeCommands (start : RoverState) (commands : String)
    (plateau : Plateau) : RoverState :=
  let init := (start.position.x, start.position.y, DIR_TO_NUM start.direction)
  let final := commands.data.foldl (execStep plateau) init
  { position := { x := final.1, y := final.2.1 },
    direction := DIRECTIONS.getD final.2.2 Direction.N }

/-- The boundary-containment predicate `0 ≤ x ≤ maxX ∧ 0 ≤ y ≤ maxY`. -/
abbrev inBounds (p : Position) (plateau : Plateau) : Prop :=
  0 ≤ p.x ∧ p.x ≤ plateau.maxX ∧ 0 ≤ p.y ∧ p.y ≤ plateau.maxY

/-! ## JavaScript platform model

The parser uses `String.prototype.trim`, `String.prototype.split` (on `'\n'`
and on the regex `/\s+/`), `String.prototype.toUpperCase`, `Number(string)`
and `Number.isInteger`.  These platform primitives are modelled below.  The
whitespace class covers the ASCII whitespace characters plus NBSP and the
BOM (the inputs at hand are ASCII). -/

/-- The JavaScript whitespace class used by `trim` and `/\s/`. -/
def isJsWs (c : Char) : Bool :=
  c = ' ' ∨ c = '\t' ∨ c = '\n' ∨ c = '\r' ∨
  c = '\x0b' ∨ c = '\x0c' ∨ c = ' ' ∨ c = '﻿'

/-- Model of `String.prototype.trim` on a character list: strip leading and trailing
whitespace. -/
def trimJsList (cs : List Char) : List Char :=
  ((cs.dropWhile isJsWs).reverse.dropWhile isJsWs).reverse

/-- Model of `String.prototype.toUpperCase` (ASCII range). -/
def jsToUpper (s : String) : String := ⟨s.data.map Char.toUpper⟩

/-- Worker for `splitWs`: gather the current token (in reverse) until the
next whitespace run; a whitespace run closes the token, and while
`skipping` further whitespace extends the same run instead of opening a new
(empty) token. -/
def splitWsGo (skipping : Bool) (cur : List Char) :
    List Char → List (List Char)
  | [] => [cur.reverse]
  | c :: rest =>
    if isJsWs c then
      if skipping then
        splitWsGo true [] rest
      else
        cur.reverse :: splitWsGo true [] rest
    else
      splitWsGo false (c :: cur) rest

/-- Model of `s.split(/\s+/)`: tokens delimited by maximal whitespace runs; a leading
or trailing run contributes an empty edge token, exactly as in JavaScript. -/
def splitWs (s : String) : List String :=
  (splitWsGo false [] s.data).map (fun l => String.mk l)

/-- A JavaScript number as far as the parser observes it: NaN, an infinity,
or a finite value, kept exactly as a scaled decimal
`mantissa * 10 ^ exponent` (the representation is not normalised; only the
value-level observations `jsIsInteger` and `jsToInt` are used). -/
inductive JSNumber where
  | nan : JSNumber
  | infinite (negative : Bool) : JSNumber
  | finite (mantissa : Int) (exponent : Int) : JSNumber
deriving DecidableEq, Repr

/-- Model of `Number.isInteger`: a finite value `mantissa * 10 ^ exponent` is an
integer iff the exponent is non-negative or the mantissa carries enough
trailing decimal zeros. -/
def jsIsInteger : JSNumber → Bool
  | .finite m e => if 0 ≤ e then true else m % ((10 : Int) ^ (-e).toNat) = 0
  | _ => false

/-- Model of `isNaN` (on an already-converted number). -/
def jsIsNaN : JSNumber → Bool
  | .nan => true
  | _ => false

/-- The integer value of a finite integral `JSNumber` (0 otherwise). -/
def jsToInt : JSNumber → Int
  | .finite m e =>
    if 0 ≤ e then m * (10 : Int) ^ e.toNat else m / ((10 : Int) ^ (-e).toNat)
  | _ => 0

/-- Numeric value of a decimal-digit list read most-significant first. -/
def digitsToNat (ds : List Char) : Nat :=
  ds.foldl (fun a c => a * 10 + (c.toNat - 48)) 0

/-- Value of a hexadecimal digit, if any. -/
def hexDigitVal (c : Char) : Option Nat :=
  if '0' ≤ c ∧ c ≤ '9' then some (c.toNat - 48)
  else if 'a' ≤ c ∧ c ≤ 'f' then some (c.toNat - 87)
  else if 'A' ≤ c ∧ c ≤ 'F' then some (c.toNat - 55)
  else none

/-- Value of a digit list in the given base, provided every character is a
digit of that base. -/
def radixVal (base : Nat) (digOf : Char → Option Nat) : List Char → Option Nat
  | [] => some 0
  | c :: rest => do
    let d ← digOf c
    let r ← radixVal base digOf rest
    pure (d * base ^ rest.length + r)

/-- ECMAScript `NonDecimalIntegerLiteral` inside `StringNumericLiteral`:
`0x`/`0X` hex, `0o`/`0O` octal, `0b`/`0B` binary (no sign allowed). -/
def parseNonDecimal : List Char → Option Nat
  | '0' :: p :: ds =>
    if ds = [] then none
    else if p = 'x' ∨ p = 'X' then radixVal 16 hexDigitVal ds
    else if p = 'o' ∨ p = 'O' then
      radixVal 8 (fun c => if '0' ≤ c ∧ c ≤ '7' then some (c.toNat - 48)
        else none) ds
    else if p = 'b' ∨ p = 'B' then
      radixVal 2 (fun c => if c = '0' ∨ c = '1' then some (c.toNat - 48)
        else none) ds
    else none
  | _ => none

/-- ECMAScript `ExponentPart` without the leading `e`/`E`: an optionally
signed nonempty digit run. -/
def parseExpPart (cs : List Char) : Option Int :=
  match cs with
  | '+' :: ds =>
    if ds ≠ [] ∧ ds.all Char.isDigit then some (digitsToNat ds) else none
  | '-' :: ds =>
    if ds ≠ [] ∧ ds.all Char.isDigit then some (-(digitsToNat ds : Int))
    else none
  | ds =>
    if ds ≠ [] ∧ ds.all Char.isDigit then some (digitsToNat ds) else none

/-- ECMAScript `StrUnsignedDecimalLiteral` other than `Infinity`:
`digits [. digits] [exp]` or `. digits [exp]`; the whole list must be
consumed.  The value is returned exactly as the scaled decimal
`(mantissa, exp - #fractionDigits)`. -/
def parseUnsignedDec (cs : List Char) : Option (Nat × Int) :=
  let intPart := cs.takeWhile Char.isDigit
  let rest := cs.dropWhile Char.isDigit
  let mkVal (frac : List Char) (e : Int) : Nat × Int :=
    (digitsToNat (intPart ++ frac), e - frac.length)
  match rest with
  | [] => if intPart = [] then none else some (mkVal [] 0)
  | '.' :: rest2 =>
    let frac := rest2.takeWhile Char.isDigit
    let rest3 := rest2.dropWhile Char.isDigit
    if intPart = [] ∧ frac = [] then none
    else
      match rest3 with
      | [] => some (mkVal frac 0)
      | e :: rest4 =>
        if e = 'e' ∨ e = 'E' then (parseExpPart rest4).map (mkVal frac)
        else none
  | e :: rest2 =>
    if (e = 'e' ∨ e = 'E') ∧ intPart ≠ [] then
      (parseExpPart rest2).map (mkVal [])
    else none

/-- Model of `Number(string)` after the ECMAScript `StringNumericLiteral` grammar:
trim, empty means 0, then a non-decimal integer literal or an optionally
signed decimal literal or `Infinity`; anything else is NaN.  The finite
value is kept exact (see the module comment). -/
def jsStringToNumber (s : String) : JSNumber :=
  match trimJsList s.data with
  | [] => .finite 0 0
  | cs =>
    match parseNonDecimal cs with
    | some n => .finite n 0
    | none =>
      let (neg, body) :=
        match cs with
        | '+' :: r => (false, r)
        | '-' :: r => (true, r)
        | r => (false, r)
      if body = "Infinity".data then .infinite neg
      else
        match parseUnsignedDec body with
        | some me =>
          .finite (if neg then -(me.1 : Int) else (me.1 : Int)) me.2
        | none => .nan

/-! ## Parser (`src/lib/rover/parser.ts`)

The source throws `Error` values with descriptive messages; the embedding
returns `Except ParseError`, one constructor per distinct message shape,
carrying the data interpolated into the message. -/

/-- The parser's error taxonomy, one constructor per `throw` site in
`parser.ts`, carrying the data the message reports. -/
inductive ParseError where
  /-- Message "Input is empty or contains no valid lines". -/
  | emptyInput : ParseError
  /-- Message "Input must contain at least plateau line + one rover (position + commands)". -/
  | minShape : ParseError
  /-- Message "Invalid input format: each rover must have exactly 2 lines (position + commands)". -/
  | pairing : ParseError
  /-- Message "Invalid plateau line: expected maxX maxY, got the line". -/
  | invalidPlateauLine (line : String) : ParseError
  /-- Message "Invalid fieldName: value is not a valid integer". -/
  | invalidInteger (fieldName : String) (value : String) : ParseError
  /-- Message "Plateau coordinates must be non-negative". -/
  | negativePlateau : ParseError
  /-- Message "Invalid position line: expected x y D, got the line". -/
  | invalidPositionLine (line : String) : ParseError
  /-- Message "Invalid direction d: must be one of N, E, S, W". -/
  | invalidDirection (d : String) : ParseError
  /-- Message "Starting position (x, y) is outside plateau bounds (0-maxX, 0-maxY)". -/
  | outOfBounds (x y maxX maxY : Int) : ParseError
  /-- Message "Invalid commands line: must only contain L, R, or M". -/
  | invalidCommands (line : String) : ParseError
deriving DecidableEq, Repr

/-- One rover's program (an entry of `ParsedInput['rovers']`). -/
structure RoverInput where
  start : RoverState
  commands : String
deriving DecidableEq, Repr

/-- The parser's output type (`ParsedInput` in `types.ts`). -/
structure ParsedInput where
  plateau : Plateau
  rovers : List RoverInput
deriving DecidableEq, Repr

/-- Embedding of `parseInteger` from `parser.ts`: convert with `Number(value)` and reject
unless the result is an integer (`!Number.isInteger(num) || isNaN(num)`). -/
def parseInteger (value : String) (fieldName : String) :
    Except ParseError Int :=
  let num := jsStringToNumber value
  if ¬ (jsIsInteger num = true) ∨ jsIsNaN num = true then
    .error (.invalidInteger fieldName value)
  else
    .ok (jsToInt num)

/-- Embedding of `parsePlateau` from `parser.ts`: split on whitespace runs, require
exactly two integer fields, both non-negative. -/
def parsePlateau (line : String) : Except ParseError Plateau := do
  match splitWs line with
  | [p0, p1] =>
    let maxX ← parseInteger p0 "plateau maxX"
    let maxY ← parseInteger p1 "plateau maxY"
    if maxX < 0 ∨ maxY < 0 then
      .error .negativePlateau
    else
      .ok { maxX := maxX, maxY := maxY }
  | _ => .error (.invalidPlateauLine line)

/-- The `VALID_DIRECTIONS` membership test plus the `as Direction` cast of
`parsePosition`, in one step: the uppercased token names a `Direction`
exactly when it is in the set. -/
def dirOfString : String → Option Direction
  | "N" => some .N
  | "E" => some .E
  | "S" => some .S
  | "W" => some .W
  | _ => none

/-- Embedding of `parsePosition` from `parser.ts`: split on whitespace runs, require
exactly three fields (integer x, integer y, direction letter matched
case-insensitively against {N,E,S,W}), then require (x, y) inside the
plateau's inclusive bounds. -/
def parsePosition (line : String) (plateau : Plateau) :
    Except ParseError RoverState := do
  match splitWs line with
  | [p0, p1, p2] =>
    let x ← parseInteger p0 "x coordinate"
    let y ← parseInteger p1 "y coordinate"
    let direction := jsToUpper p2
    match dirOfString direction with
    | none => .error (.invalidDirection direction)
    | some d =>
      if x < 0 ∨ x > plateau.maxX ∨ y < 0 ∨ y > plateau.maxY then
        .error (.outOfBounds x y plateau.maxX plateau.maxY)
      else
        .ok { position := { x := x, y := y }, direction := d }
  | _ => .error (.invalidPositionLine line)

/-- Embedding of `parseCommands` from `parser.ts`: uppercase the line, then require it to
match `/^[LRM]+$/` (nonempty, every character in {L,R,M}). -/
def parseCommands (line : String) : Except ParseError String :=
  let commands := jsToUpper line
  if commands.length > 0 ∧
      commands.data.all (fun c => c = 'L' ∨ c = 'R' ∨ c = 'M') then
    .ok commands
  else
    .error (.invalidCommands line)

/-- The rover loop of `parseInput` (`for i = 1; i < lines.length; i += 2`):
consume the remaining lines two at a time, position line first, then
commands line.  The structural pairing check guarantees the singleton case
never arises. -/
def parseRovers (plateau : Plateau) :
    List String → Except ParseError (List RoverInput)
  | [] => .ok []
  | positionLine :: commandsLine :: rest => do
    let start ← parsePosition positionLine plateau
    let commands ← parseCommands commandsLine
    let rs ← parseRovers plateau rest
    .ok ({ start := start, commands := commands } :: rs)
  | [_] => .ok []

/-- The line preprocessing of `parseInput`: trim the input, split on
newlines, trim every line, drop empty lines. -/
def toLines (input : String) : List String :=
  (((trimJsList input.data).splitOn '\n').map
      (fun l => String.mk (trimJsList l))).filter
    (fun line => line.length > 0)

/-- Embedding of `parseInput` from `parser.ts`: preprocess the lines, run the three
structural checks (emptiness, minimum shape, pairing) in order, then parse
the plateau line and every rover pair, fail-fast throughout. -/
def parseInput (input : String) : Except ParseError ParsedInput := do
  let lines := toLines input
  if lines.length < 1 then
    .error .emptyInput
  else if lines.length < 3 then
    .error .minShape
  else if (lines.length - 1) % 2 ≠ 0 then
    .error .pairing
  else do
    let plateau ← parsePlateau (lines.getD 0 "")
    let rovers ← parseRovers plateau (lines.drop 1)
    .ok { plateau := plateau, rovers := rovers }

/-! ## Formatter (`src/lib/rover/format.ts`) -/

/-- The letter a `Direction` renders as. -/
def directionLetter : Direction → String
  | .N => "N"
  | .E => "E"
  | .S => "S"
  | .W => "W"

/-- Embedding of `formatOutput` from `format.ts`: each state as `"x y D"`, joined with
newlines (no trailing newline). -/
def formatOutput (states : List RoverState) : String :=
  String.intercalate "\n"
    (states.map (fun state =>
      toString state.position.x ++ " " ++ toString state.position.y ++ " " ++
        directionLetter state.direction))

/-- The end-to-end pipeline of the integration tests: parse, execute every
rover in input order against the parsed plateau, format the final states. -/
def runMission (input : String) : Except ParseError String := do
  let parsed ← parseInput input
  let finalStates := parsed.rovers.map (fun rover =>
    executeCommands rover.start rover.commands parsed.plateau)
  .ok (formatOutput finalStates)

/-! ## Specification-side definitions

Definitions written after the specification's words, to be compared with the
embedded code: the unit displacement table of §4.1 and the two turn cycles of
§3. -/

/-- Spec §4.1: the unit displacement vector for each direction —
North→(0,+1), East→(+1,0), South→(0,−1), West→(−1,0). -/
def specUnitDisplacement : Direction → Int × Int
  | .N => (0, 1)
  | .E => (1, 0)
  | .S => (0, -1)
  | .W => (-1, 0)

/-- Spec §3: the left-turn cycle North→West→South→East→North. -/
def specTurnLeft : Direction → Direction
  | .N => .W
  | .W => .S
  | .S => .E
  | .E => .N

/-- Spec §3: the right-turn cycle, the reverse of the left one. -/
def specTurnRight : Direction → Direction
  | .N => .E
  | .E => .S
  | .S => .W
  | .W => .N

/-- Classifier for the invalid-commands failure of `parseInput`. -/
def isInvalidCommandsFailure : Except ParseError ParsedInput → Bool
  | .error (.invalidCommands _) => true
  | _ => false

/-! ## Engine lemmas -/

/-- A single loop iteration keeps the `(x, y)` components inside the plateau
bounds: turns do not touch them, and a move is committed only after the
bounds check passes. -/
theorem execStep_bounds (pl : Plateau) (s : Int × Int × Nat) (c : Char)
    (h : 0 ≤ s.1 ∧ s.1 ≤ pl.maxX ∧ 0 ≤ s.2.1 ∧ s.2.1 ≤ pl.maxY) :
    0 ≤ (execStep pl s c).1 ∧ (execStep pl s c).1 ≤ pl.maxX ∧
      0 ≤ (execStep pl s c).2.1 ∧ (execStep pl s c).2.1 ≤ pl.maxY := by
  unfold execStep
  dsimp only
  split_ifs with h1 h2 h3 h4
  · exact h
  · exact h
  · exact h4
  · exact h
  · exact h

/-- Folding the command loop preserves the bounds on `(x, y)`. -/
theorem foldl_execStep_bounds (pl : Plateau) (l : List Char) :
    ∀ s : Int × Int × Nat,
      0 ≤ s.1 ∧ s.1 ≤ pl.maxX ∧ 0 ≤ s.2.1 ∧ s.2.1 ≤ pl.maxY →
      0 ≤ (l.foldl (execStep pl) s).1 ∧
        (l.foldl (execStep pl) s).1 ≤ pl.maxX ∧
        0 ≤ (l.foldl (execStep pl) s).2.1 ∧
        (l.foldl (execStep pl) s).2.1 ≤ pl.maxY := by
  induction l with
  | nil => intro s h; exact h
  | cons c rest ih =>
    intro s h
    exact ih (execStep pl s c) (execStep_bounds pl s c h)

/-- C1 — For every plateau and every start state whose position satisfies
`0 ≤ x ≤ maxX` and `0 ≤ y ≤ maxY`, and for every command string, the final
state returned by `executeCommands` also satisfies `0 ≤ x ≤ maxX` and
`0 ≤ y ≤ maxY`, no matter how long or adversarial the command sequence is. -/
theorem executeCommands_stays_inBounds (start : RoverState) (commands : String)
    (plateau : Plateau) (h : inBounds start.position plateau) :
    inBounds (executeCommands start commands plateau).position plateau := by
  unfold executeCommands
  exact foldl_execStep_bounds plateau commands.data
    (start.position.x, start.position.y, DIR_TO_NUM start.direction) h

/-- C1 witness: a concrete in-bounds start stays in bounds under a long
adversarial command string that repeatedly pushes at the edges. -/
theorem executeCommands_stays_inBounds_witness :
    inBounds
      (executeCommands ⟨⟨1, 2⟩, .N⟩ "MMMMMMMMMMRMMMMMMMMMMLLMMMM" ⟨5, 5⟩).position
      ⟨5, 5⟩ :=
  executeCommands_stays_inBounds ⟨⟨1, 2⟩, .N⟩ "MMMMMMMMMMRMMMMMMMMMMLLMMMM" ⟨5, 5⟩
    (by decide)

/-- A single loop iteration keeps the direction number below 4. -/
theorem execStep_dir_lt (pl : Plateau) (s : Int × Int × Nat) (c : Char)
    (h : s.2.2 < 4) : (execStep pl s c).2.2 < 4 := by
  unfold execStep
  dsimp only
  split_ifs with h1 h2 h3 h4
  · exact Nat.mod_lt _ (by omega)
  · exact Nat.mod_lt _ (by omega)
  · exact h
  · exact h
  · exact h

/-- Folding the command loop keeps the direction number below 4. -/
theorem foldl_execStep_dir_lt (pl : Plateau) (l : List Char) :
    ∀ s : Int × Int × Nat, s.2.2 < 4 → (l.foldl (execStep pl) s).2.2 < 4 := by
  induction l with
  | nil => intro s h; exact h
  | cons c rest ih => intro s h; exact ih (execStep pl s c) (execStep_dir_lt pl s c h)

/-- The numeric encoding of every direction is below 4. -/
theorem DIR_TO_NUM_lt (d : Direction) : DIR_TO_NUM d < 4 := by
  cases d <;> decide

/-- Decoding then re-encoding a direction number below 4 is the identity. -/
theorem dirNum_roundtrip : ∀ n < 4, DIR_TO_NUM (DIRECTIONS.getD n .N) = n := by
  decide

/-- Executing a concatenation of command lists equals executing the first
list and then the second from the reached state. -/
theorem executeCommands_append (st : RoverState) (pl : Plateau)
    (l1 l2 : List Char) :
    executeCommands st ⟨l1 ++ l2⟩ pl =
      executeCommands (executeCommands st ⟨l1⟩ pl) ⟨l2⟩ pl := by
  unfold executeCommands
  dsimp only
  rw [List.foldl_append]
  have hlt : (l1.foldl (execStep pl)
      (st.position.x, st.position.y, DIR_TO_NUM st.direction)).2.2 < 4 :=
    foldl_execStep_dir_lt pl l1 _ (DIR_TO_NUM_lt st.direction)
  rw [dirNum_roundtrip _ hlt]

/-- C5 — For every direction and every in-bounds state: `turnLeft` and
`turnRight` are mutual inverses (`"LR"` and `"RL"` restore the original
state), applying either turn four times (`"LLLL"` or `"RRRR"`) is the
identity, a single `'L'` steps the cycle North→West→South→East→North and a
single `'R'` the reverse cycle, and turn commands never change the
position. -/
theorem executeCommands_turn_algebra (st : RoverState) (pl : Plateau)
    (h : inBounds st.position pl) :
    executeCommands st "LR" pl = st ∧
    executeCommands st "RL" pl = st ∧
    executeCommands st "LLLL" pl = st ∧
    executeCommands st "RRRR" pl = st ∧
    executeCommands st "L" pl =
      { position := st.position, direction := specTurnLeft st.direction } ∧
    executeCommands st "R" pl =
      { position := st.position, direction := specTurnRight st.direction } := by
  obtain ⟨⟨x, y⟩, d⟩ := st
  cases d <;> refine ⟨?_, ?_, ?_, ?_, ?_, ?_⟩ <;>
    simp [executeCommands, execStep, DIR_TO_NUM, DIRECTIONS, specTurnLeft,
      specTurnRight,
      show ("LR").data = ['L', 'R'] from rfl,
      show ("RL").data = ['R', 'L'] from rfl,
      show ("LLLL").data = ['L', 'L', 'L', 'L'] from rfl,
      show ("RRRR").data = ['R', 'R', 'R', 'R'] from rfl,
      show ("L").data = ['L'] from rfl,
      show ("R").data = ['R'] from rfl]

/-- C5 witness at a concrete in-bounds state facing North. -/
theorem executeCommands_turn_algebra_witness :
    executeCommands ⟨⟨2, 2⟩, .N⟩ "LR" ⟨5, 5⟩ = ⟨⟨2, 2⟩, .N⟩ ∧
    executeCommands ⟨⟨2, 2⟩, .N⟩ "RL" ⟨5, 5⟩ = ⟨⟨2, 2⟩, .N⟩ ∧
    executeCommands ⟨⟨2, 2⟩, .N⟩ "LLLL" ⟨5, 5⟩ = ⟨⟨2, 2⟩, .N⟩ ∧
    executeCommands ⟨⟨2, 2⟩, .N⟩ "RRRR" ⟨5, 5⟩ = ⟨⟨2, 2⟩, .N⟩ ∧
    executeCommands ⟨⟨2, 2⟩, .N⟩ "L" ⟨5, 5⟩ =
      { position := ⟨2, 2⟩, direction := specTurnLeft .N } ∧
    executeCommands ⟨⟨2, 2⟩, .N⟩ "R" ⟨5, 5⟩ =
      { position := ⟨2, 2⟩, direction := specTurnRight .N } :=
  executeCommands_turn_algebra ⟨⟨2, 2⟩, .N⟩ ⟨5, 5⟩ (by decide)

/-- A character other than `'L'`, `'R'`, `'M'` falls through every branch of
the command loop and leaves the loop state unchanged. -/
theorem execStep_nonCommand (pl : Plateau) (s : Int × Int × Nat) (c : Char)
    (hL : c ≠ 'L') (hR : c ≠ 'R') (hM : c ≠ 'M') : execStep pl s c = s := by
  unfold execStep
  rw [if_neg hL, if_neg hR, if_neg hM]

/-- C9 — `executeCommands` is total over arbitrary command strings (it is a
Lean function, hence never fails), and every character other than uppercase
`'L'`, `'R'`, `'M'` — wherever it occurs in the string — is skipped as a
no-op that leaves position and direction unchanged. -/
theorem executeCommands_skips_nonCommands (st : RoverState) (pl : Plateau)
    (c : Char) (s1 s2 : String)
    (hL : c ≠ 'L') (hR : c ≠ 'R') (hM : c ≠ 'M') :
    executeCommands st ⟨s1.data ++ c :: s2.data⟩ pl =
      executeCommands st ⟨s1.data ++ s2.data⟩ pl := by
  unfold executeCommands
  dsimp only
  rw [List.foldl_append, List.foldl_append, List.foldl_cons,
    execStep_nonCommand pl _ c hL hR hM]

/-- C9 witness: a lowercase letter, a digit and a space inserted into a
command string do not change the outcome. -/
theorem executeCommands_skips_nonCommands_witness :
    executeCommands ⟨⟨1, 1⟩, .N⟩ ⟨"LM".data ++ 'x' :: "RM".data⟩ ⟨5, 5⟩ =
      executeCommands ⟨⟨1, 1⟩, .N⟩ ⟨"LM".data ++ "RM".data⟩ ⟨5, 5⟩ :=
  executeCommands_skips_nonCommands ⟨⟨1, 1⟩, .N⟩ ⟨5, 5⟩ 'x' "LM" "RM"
    (by decide) (by decide) (by decide)

/-- Characterization of a single `'M'` command: the candidate position is
the current position plus the spec's unit displacement for the current
direction, committed exactly when it is in bounds. -/
theorem executeCommands_M_eq (x y : Int) (d : Direction) (pl : Plateau) :
    executeCommands ⟨⟨x, y⟩, d⟩ "M" pl =
      (if inBounds ⟨x + (specUnitDisplacement d).1,
          y + (specUnitDisplacement d).2⟩ pl
       then ⟨⟨x + (specUnitDisplacement d).1,
          y + (specUnitDisplacement d).2⟩, d⟩
       else ⟨⟨x, y⟩, d⟩) := by
  cases d <;>
    (simp [executeCommands, execStep, DIR_TO_NUM, DIRECTIONS, DELTAS,
      specUnitDisplacement, inBounds, show ("M").data = ['M'] from rfl]
     split_ifs <;> rfl)

/-- C2 — For every in-bounds state and plateau, a single `'M'` command
computes the candidate position as the current position plus the unit
displacement of the current direction (North→(0,+1), East→(+1,0),
South→(0,−1), West→(−1,0)), commits it exactly when it lies within
`[0, maxX] × [0, maxY]` inclusive, otherwise leaves position and direction
unchanged; and command processing always continues with the next command —
an out-of-bounds move is never an error and never halts. -/
theorem executeCommands_moveForward (st : RoverState) (pl : Plateau)
    (h : inBounds st.position pl) :
    (inBounds ⟨st.position.x + (specUnitDisplacement st.direction).1,
        st.position.y + (specUnitDisplacement st.direction).2⟩ pl →
      executeCommands st "M" pl =
        { position := ⟨st.position.x + (specUnitDisplacement st.direction).1,
            st.position.y + (specUnitDisplacement st.direction).2⟩,
          direction := st.direction }) ∧
    (¬ inBounds ⟨st.position.x + (specUnitDisplacement st.direction).1,
        st.position.y + (specUnitDisplacement st.direction).2⟩ pl →
      executeCommands st "M" pl = st) ∧
    (∀ rest : String,
      executeCommands st (String.mk ('M' :: rest.data)) pl =
        executeCommands (executeCommands st "M" pl) rest pl) := by
  obtain ⟨⟨x, y⟩, d⟩ := st
  refine ⟨?_, ?_, ?_⟩
  · intro hc
    rw [executeCommands_M_eq, if_pos hc]
  · intro hc
    rw [executeCommands_M_eq, if_neg hc]
  · intro rest
    rw [show (String.mk ('M' :: rest.data)) =
        (⟨("M").data ++ rest.data⟩ : String) from rfl,
      executeCommands_append,
      show (String.mk ("M").data) = "M" from rfl,
      show (String.mk rest.data) = rest from rfl]

/-- C2 witness: from (1, 2) facing North on a 5×5 plateau, `'M'` commits the
candidate (1, 3). -/
theorem executeCommands_moveForward_witness :
    executeCommands ⟨⟨1, 2⟩, .N⟩ "M" ⟨5, 5⟩ =
      { position := ⟨1 + (specUnitDisplacement Direction.N).1,
          2 + (specUnitDisplacement Direction.N).2⟩,
        direction := Direction.N } :=
  (executeCommands_moveForward ⟨⟨1, 2⟩, .N⟩ ⟨5, 5⟩ (by decide)).1 (by decide)

/-! ## Parser lemmas -/

/-- A NaN is never an integer. -/
theorem jsIsInteger_of_nan (n : JSNumber) (h : jsIsNaN n = true) :
    jsIsInteger n = false := by
  cases n <;> simp_all [jsIsNaN, jsIsInteger]

/-- On an integral conversion, `parseInteger` succeeds and returns the
integer value. -/
theorem parseInteger_eq_ok (value fieldName : String)
    (h : jsIsInteger (jsStringToNumber value) = true) :
    parseInteger value fieldName = .ok (jsToInt (jsStringToNumber value)) := by
  unfold parseInteger
  rw [if_neg]
  rintro (hc | hc)
  · exact hc h
  · have hfalse := jsIsInteger_of_nan _ hc
    rw [h] at hfalse
    simp at hfalse

/-- On a non-integral conversion, `parseInteger` fails with the
not-a-valid-integer error. -/
theorem parseInteger_eq_error (value fieldName : String)
    (h : jsIsInteger (jsStringToNumber value) = false) :
    parseInteger value fieldName =
      .error (.invalidInteger fieldName value) := by
  unfold parseInteger
  rw [if_pos]
  exact Or.inl (by simp [h])

/-- C4 — For every numeric field, parsing fails with the
not-a-valid-integer error exactly when the field's text does not convert to
an integer value — covering non-numeric text, fractional values such as
`"5.5"`, `"NaN"` and `"Infinity"` — while decimal-looking integer strings
such as `"2.0"` convert to a numeric value, pass the integrality check, and
are accepted. -/
theorem parseInteger_integrality (s fieldName : String) :
    ((parseInteger s fieldName).isOk = true ↔
      jsIsInteger (jsStringToNumber s) = true) ∧
    parseInteger "5.5" fieldName = .error (.invalidInteger fieldName "5.5") ∧
    parseInteger "NaN" fieldName = .error (.invalidInteger fieldName "NaN") ∧
    parseInteger "Infinity" fieldName =
      .error (.invalidInteger fieldName "Infinity") ∧
    parseInteger "abc" fieldName = .error (.invalidInteger fieldName "abc") ∧
    parseInteger "2.0" fieldName = .ok 2 := by
  refine ⟨⟨fun h => ?_, fun h => ?_⟩,
    parseInteger_eq_error _ _ (by decide), parseInteger_eq_error _ _ (by decide),
    parseInteger_eq_error _ _ (by decide), parseInteger_eq_error _ _ (by decide),
    (parseInteger_eq_ok "2.0" fieldName (by decide)).trans (by rfl)⟩
  · by_contra hn
    rw [parseInteger_eq_error s fieldName (by simpa using hn)] at h
    simp [Except.isOk, Except.toBool] at h
  · rw [parseInteger_eq_ok s fieldName h]
    rfl

/-- C10 — `parseInteger` accepts exactly the strings whose JavaScript
`Number()` conversion yields an integer value (returning that value), so in
addition to decimal-looking forms like `"2.0"` it accepts hexadecimal
(`"0x10"` as 16), scientific notation (`"1e3"` as 1000) and explicitly
signed forms (`"+5"` as 5). -/
theorem parseInteger_follows_Number (s fieldName : String) :
    ((parseInteger s fieldName).isOk = true ↔
      jsIsInteger (jsStringToNumber s) = true) ∧
    (∀ n : Int, parseInteger s fieldName = .ok n ↔
      jsIsInteger (jsStringToNumber s) = true ∧
        jsToInt (jsStringToNumber s) = n) ∧
    parseInteger "0x10" fieldName = .ok 16 ∧
    parseInteger "1e3" fieldName = .ok 1000 ∧
    parseInteger "+5" fieldName = .ok 5 := by
  refine ⟨⟨fun h => ?_, fun h => ?_⟩, fun n => ⟨fun h => ?_, fun h => ?_⟩,
    (parseInteger_eq_ok "0x10" fieldName (by decide)).trans (by rfl),
    (parseInteger_eq_ok "1e3" fieldName (by decide)).trans (by rfl),
    (parseInteger_eq_ok "+5" fieldName (by decide)).trans (by rfl)⟩
  · by_contra hn
    rw [parseInteger_eq_error s fieldName (by simpa using hn)] at h
    simp [Except.isOk, Except.toBool] at h
  · rw [parseInteger_eq_ok s fieldName h]
    rfl
  · by_cases hint : jsIsInteger (jsStringToNumber s) = true
    · rw [parseInteger_eq_ok s fieldName hint] at h
      exact ⟨hint, Except.ok.inj h⟩
    · rw [parseInteger_eq_error s fieldName (by simpa using hint)] at h
      cases h
  · rw [parseInteger_eq_ok s fieldName h.1, h.2]

/-- C6 — Parsing the five-line sample input, running `executeCommands` on
each rover in input order against the parsed plateau, and formatting the
final states yields exactly `"1 3 N\n5 1 E"` — one line per rover, in input
order, single-space separators, no trailing newline. -/
theorem scenarioA_endToEnd :
    parseInput "5 5\n1 2 N\nLMLMLMLMM\n3 3 E\nMMRMMRMRRM" =
      .ok { plateau := ⟨5, 5⟩,
            rovers := [⟨⟨⟨1, 2⟩, .N⟩, "LMLMLMLMM"⟩,
                       ⟨⟨⟨3, 3⟩, .E⟩, "MMRMMRMRRM"⟩] } ∧
    runMission "5 5\n1 2 N\nLMLMLMLMM\n3 3 E\nMMRMMRMRRM" =
      .ok "1 3 N\n5 1 E" := by
  exact ⟨by rfl, by rfl⟩

/-- C8 — After trimming and discarding blank lines, `parseInput` performs
its structural checks in order and before examining any line's content:
emptiness first, then minimum shape (fewer than 3 lines), then pairing (the
line count after the first must be even), each a distinct error; on failure
the error is returned immediately and no `ParsedInput` is produced. -/
theorem parseInput_structural_checks (input : String) :
    (toLines input = [] → parseInput input = .error .emptyInput) ∧
    (1 ≤ (toLines input).length → (toLines input).length < 3 →
      parseInput input = .error .minShape) ∧
    (3 ≤ (toLines input).length → ((toLines input).length - 1) % 2 = 1 →
      parseInput input = .error .pairing) := by
  refine ⟨fun h => ?_, fun h1 h2 => ?_, fun h1 h2 => ?_⟩
  · unfold parseInput
    rw [h]
    rfl
  · unfold parseInput
    rw [if_neg (by omega), if_pos h2]
  · unfold parseInput
    rw [if_neg (by omega), if_neg (by omega), if_pos (by omega)]

/-- C8 witness: the three structural failures at three concrete inputs —
only blanks, plateau line alone, and a dangling rover line. -/
theorem parseInput_structural_checks_witness :
    parseInput " \n " = .error .emptyInput ∧
    parseInput "5 5\n1 2 N" = .error .minShape ∧
    parseInput "5 5\n1 2 N\nM\n3 3 E" = .error .pairing :=
  ⟨(parseInput_structural_checks " \n ").1 (by rfl),
   (parseInput_structural_checks "5 5\n1 2 N").2.1 (by decide) (by decide),
   (parseInput_structural_checks "5 5\n1 2 N\nM\n3 3 E").2.2 (by decide)
     (by decide)⟩

/-- Dropping an all-satisfying prefix block before `dropWhile` only shifts
the scan into the suffix. -/
theorem dropWhile_append_of_forall (p : Char → Bool) (l1 l2 : List Char)
    (h : ∀ c ∈ l1, p c = true) :
    (l1 ++ l2).dropWhile p = l2.dropWhile p := by
  induction l1 with
  | nil => rfl
  | cons a l ih =>
    rw [List.cons_append, List.dropWhile_cons_of_pos (h a (List.mem_cons_self a l)),
      ih (fun c hc => h c (List.mem_cons_of_mem a hc))]

/-- Dropping a prefix that still contains a non-satisfying element stops
the scan inside the prefix: the suffix survives untouched. -/
theorem dropWhile_append_of_exists (p : Char → Bool) (l1 l2 : List Char)
    (h : ¬ ∀ c ∈ l1, p c = true) :
    (l1 ++ l2).dropWhile p = l1.dropWhile p ++ l2 := by
  induction l1 with
  | nil => exact absurd (by simp) h
  | cons a t ih =>
    by_cases ha : p a = true
    · have ht : ¬ ∀ c ∈ t, p c = true := by
        intro hall
        refine h ?_
        intro c hc
        rcases List.mem_cons.mp hc with rfl | hm
        · exact ha
        · exact hall c hm
      rw [List.cons_append, List.dropWhile_cons_of_pos ha,
        List.dropWhile_cons_of_pos ha, ih ht]
    · rw [List.cons_append, List.dropWhile_cons_of_neg ha,
        List.dropWhile_cons_of_neg ha, List.cons_append]

/-- Trimming absorbs any whitespace-only suffix. -/
theorem trimJsList_append_ws (u z : List Char)
    (hz : ∀ c ∈ z, isJsWs c = true) :
    trimJsList (u ++ z) = trimJsList u := by
  by_cases hu : ∀ c ∈ u, isJsWs c = true
  · unfold trimJsList
    have ha : ∀ c ∈ u ++ z, isJsWs c = true := by
      intro c hc
      rcases List.mem_append.mp hc with hm | hm
      exacts [hu c hm, hz c hm]
    rw [List.dropWhile_eq_nil_iff.mpr ha, List.dropWhile_eq_nil_iff.mpr hu]
  · unfold trimJsList
    rw [dropWhile_append_of_exists isJsWs u z hu, List.reverse_append,
      dropWhile_append_of_forall isJsWs _ _
        (fun c hc => hz c (List.mem_reverse.mp hc))]

/-- A trailing newline followed by a whitespace-only line is invisible to
the parser's line preprocessing: the blank line is trimmed and filtered
away before any check looks at it. -/
theorem toLines_append_blank (x w : String)
    (hw : ∀ c ∈ w.data, isJsWs c = true) :
    toLines (x ++ "\n" ++ w) = toLines x := by
  unfold toLines
  rw [show (x ++ "\n" ++ w).data = x.data ++ ('\n' :: w.data) from by
        simp [String.data_append],
    trimJsList_append_ws x.data ('\n' :: w.data) ?hz]
  case hz =>
    intro c hc
    rcases List.mem_cons.mp hc with rfl | hm
    · decide
    · exact hw c hm

/-- Binding a failed `Except` computation short-circuits to the failure. -/
theorem exceptErrorBind {ε α β : Type} (e : ε) (f : α → Except ε β) :
    (Except.error e >>= f) = Except.error e := rfl

/-- Binding a successful `Except` computation runs the continuation. -/
theorem exceptOkBind {ε α β : Type} (v : α) (f : α → Except ε β) :
    (Except.ok v >>= f) = f v := rfl

/-- Every failure of `parseInteger` is the not-a-valid-integer error. -/
theorem parseInteger_error_eq (value fieldName : String) (e : ParseError)
    (h : parseInteger value fieldName = .error e) :
    e = .invalidInteger fieldName value := by
  simp only [parseInteger] at h
  split_ifs at h
  exact (Except.error.inj h).symm

/-- Every failure of `parseCommands` is the invalid-commands error carrying
the offending line. -/
theorem parseCommands_error_eq (line : String) (e : ParseError)
    (h : parseCommands line = .error e) : e = .invalidCommands line := by
  simp only [parseCommands] at h
  split_ifs at h
  exact (Except.error.inj h).symm

/-- The plateau parser never produces the invalid-commands error. -/
theorem parsePlateau_not_invalidCommands (line l' : String) :
    parsePlateau line ≠ .error (.invalidCommands l') := by
  intro h
  simp only [parsePlateau] at h
  split at h
  · rename_i p0 p1 heq
    rcases hx : parseInteger p0 "plateau maxX" with e | vx
    · rw [hx, exceptErrorBind] at h
      rw [parseInteger_error_eq _ _ _ hx] at h
      simp at h
    · simp only [hx, exceptOkBind] at h
      rcases hy : parseInteger p1 "plateau maxY" with e | vy
      · rw [hy, exceptErrorBind] at h
        rw [parseInteger_error_eq _ _ _ hy] at h
        simp at h
      · simp only [hy, exceptOkBind] at h
        split_ifs at h
        simp at h
  all_goals simp at h

/-- The position parser never produces the invalid-commands error. -/
theorem parsePosition_not_invalidCommands (line : String) (plateau : Plateau)
    (l' : String) : parsePosition line plateau ≠ .error (.invalidCommands l') := by
  intro h
  simp only [parsePosition] at h
  split at h
  · rename_i p0 p1 p2 heq
    rcases hx : parseInteger p0 "x coordinate" with e | vx
    · rw [hx, exceptErrorBind] at h
      rw [parseInteger_error_eq _ _ _ hx] at h
      simp at h
    · simp only [hx, exceptOkBind] at h
      rcases hy : parseInteger p1 "y coordinate" with e | vy
      · rw [hy, exceptErrorBind] at h
        rw [parseInteger_error_eq _ _ _ hy] at h
        simp at h
      · simp only [hy, exceptOkBind] at h
        split at h
        · simp at h
        · split_ifs at h
          simp at h
  all_goals simp at h

/-- An invalid-commands failure of the rover loop always reports one of the
loop's own input lines — the line the pattern check actually examined. -/
theorem parseRovers_invalidCommands_mem :
    ∀ (lines : List String) (plateau : Plateau) (line' : String),
      parseRovers plateau lines = .error (.invalidCommands line') →
      line' ∈ lines
  | [], _, _, h => by simp [parseRovers] at h
  | [_], _, _, h => by simp [parseRovers] at h
  | a :: b :: rest, plateau, line', h => by
    simp only [parseRovers] at h
    rcases hp : parsePosition a plateau with e | st
    · rw [hp, exceptErrorBind] at h
      exact absurd ((Except.error.inj h) ▸ hp)
        (parsePosition_not_invalidCommands a plateau line')
    · simp only [hp, exceptOkBind] at h
      rcases hc : parseCommands b with e | cmds
      · rw [hc, exceptErrorBind] at h
        have hb : ParseError.invalidCommands b =
            ParseError.invalidCommands line' :=
          (parseCommands_error_eq b e hc) ▸ Except.error.inj h
        have hbl : b = line' := ParseError.invalidCommands.inj hb
        subst hbl
        exact List.mem_cons_of_mem a (List.mem_cons_self b rest)
      · simp only [hc, exceptOkBind] at h
        rcases hr : parseRovers plateau rest with e | rs
        · rw [hr, exceptErrorBind] at h
          exact List.mem_cons_of_mem a (List.mem_cons_of_mem b
            (parseRovers_invalidCommands_mem rest plateau line'
              ((Except.error.inj h) ▸ hr)))
        · simp only [hr, exceptOkBind] at h
          simp at h

/-- Every line the parser examines survived the positive-length filter. -/
theorem toLines_mem_pos (input l : String) (h : l ∈ toLines input) :
    0 < l.length := by
  unfold toLines at h
  simpa using List.of_mem_filter h

/-- C3 counterexample — on the input whose only rover has a whitespace-only
commands line, `parseInput` fails with the structural minimum-shape error,
not with the invalid-commands error. -/
theorem blank_commands_not_invalidCommands :
    parseInput "5 5\n1 2 N\n " = .error .minShape ∧
    isInvalidCommandsFailure (parseInput "5 5\n1 2 N\n ") = false :=
  ⟨by rfl, by rfl⟩

/-- C3 (amended) — An empty or whitespace-only commands line is removed by
the blank-line filtering that precedes every check, so `parseInput` behaves
exactly as if the line were absent (first conjunct, for any input); in
particular every input consisting of a plateau line and a rover position
line — any two lines that survive preprocessing, so in particular any valid
ones — followed by a blank commands line fails with the structural
minimum-shape error, not the invalid-commands error (second conjunct).  The
pattern check itself does reject the empty string (third conjunct), but
`parseInput` never reaches it with one: every invalid-commands failure
reports a nonempty line of the filtered input (fourth conjunct), as in the
multi-rover case where blank commands lines misalign the pairing and a
later rover's nonempty position line is reported instead. -/
theorem parseInput_blank_commands_filtered :
    (∀ x w : String, (∀ c ∈ w.data, isJsWs c = true) →
      toLines (x ++ "\n" ++ w) = toLines x) ∧
    (∀ x w : String, (∀ c ∈ w.data, isJsWs c = true) →
      (toLines x).length = 2 →
      parseInput (x ++ "\n" ++ w) = .error .minShape) ∧
    parseCommands "" = .error (.invalidCommands "") ∧
    (∀ input line' : String,
      parseInput input = .error (.invalidCommands line') →
      line' ∈ toLines input ∧ 0 < line'.length) := by
  refine ⟨fun x w hw => toLines_append_blank x w hw, fun x w hw h2 => ?_,
    by rfl, fun input line' h => ?_⟩
  · unfold parseInput
    rw [toLines_append_blank x w hw, if_neg (by omega), if_pos (by omega)]
  · have hmem : line' ∈ toLines input := by
      simp only [parseInput] at h
      split_ifs at h with h1 h2 h3
      · exact absurd h (by simp)
      · exact absurd h (by simp)
      · exact absurd h (by simp)
      · rcases hpl : parsePlateau ((toLines input).getD 0 "") with e | plateau
        · rw [hpl, exceptErrorBind] at h
          exact absurd ((Except.error.inj h) ▸ hpl)
            (parsePlateau_not_invalidCommands _ line')
        · simp only [hpl, exceptOkBind] at h
          rcases hr : parseRovers plateau ((toLines input).drop 1) with e | rs
          · rw [hr, exceptErrorBind] at h
            exact List.mem_of_mem_drop
              (parseRovers_invalidCommands_mem _ plateau line'
                ((Except.error.inj h) ▸ hr))
          · simp only [hr, exceptOkBind] at h
            simp at h
    exact ⟨hmem, toLines_mem_pos input line' hmem⟩

/-- C3 (amended) witness: a two-line prefix with a tab-and-space commands
line fails with the minimum-shape error, and the multi-rover blank-commands
input fails by reporting the nonempty misaligned line `"3 3 E"`. -/
theorem parseInput_blank_commands_filtered_witness :
    parseInput ("5 5\n1 2 N" ++ "\n" ++ "\t ") = .error .minShape ∧
    ("3 3 E" ∈ toLines "5 5\n1 2 N\n \n3 3 E\n " ∧
      0 < ("3 3 E" : String).length) :=
  ⟨parseInput_blank_commands_filtered.2.1 "5 5\n1 2 N" "\t "
      (by decide) (by rfl),
   parseInput_blank_commands_filtered.2.2.2 "5 5\n1 2 N\n \n3 3 E\n " "3 3 E"
      (by rfl)⟩

/-- C7 — For every rover position line that tokenizes into three fields
with valid integer coordinates and a valid direction letter, `parsePosition`
fails with the outside-plateau-bounds error — reporting both the offending
point and the bounds — exactly when `x < 0`, `x > maxX`, `y < 0` or
`y > maxY`; boundary positions are accepted. -/
theorem parsePosition_bounds_check (plateau : Plateau)
    (line p0 p1 p2 : String) (x y : Int) (d : Direction)
    (hsplit : splitWs line = [p0, p1, p2])
    (hx : parseInteger p0 "x coordinate" = .ok x)
    (hy : parseInteger p1 "y coordinate" = .ok y)
    (hd : dirOfString (jsToUpper p2) = some d) :
    (parsePosition line plateau =
        .error (.outOfBounds x y plateau.maxX plateau.maxY) ↔
      (x < 0 ∨ x > plateau.maxX ∨ y < 0 ∨ y > plateau.maxY)) ∧
    ((0 ≤ x ∧ x ≤ plateau.maxX ∧ 0 ≤ y ∧ y ≤ plateau.maxY) →
      parsePosition line plateau =
        .ok { position := { x := x, y := y }, direction := d }) := by
  have hp : parsePosition line plateau =
      if x < 0 ∨ x > plateau.maxX ∨ y < 0 ∨ y > plateau.maxY then
        .error (.outOfBounds x y plateau.maxX plateau.maxY)
      else .ok { position := { x := x, y := y }, direction := d } := by
    unfold parsePosition
    rw [hsplit]
    simp only [hx, hy, hd]
    rfl
  refine ⟨?_, fun hin => ?_⟩
  · rw [hp]
    split_ifs with hc
    · exact iff_of_true rfl hc
    · exact iff_of_false (by simp) hc
  · rw [hp, if_neg (by omega)]

/-- C7 witness: on a 5×5 plateau, position line `"6 2 N"` fails with the
out-of-bounds error reporting the point and the bounds, while the boundary
position line `"5 5 N"` is accepted. -/
theorem parsePosition_bounds_check_witness :
    parsePosition "6 2 N" ⟨5, 5⟩ = .error (.outOfBounds 6 2 5 5) ∧
    parsePosition "5 5 N" ⟨5, 5⟩ =
      .ok { position := { x := 5, y := 5 }, direction := .N } :=
  ⟨(parsePosition_bounds_check ⟨5, 5⟩ "6 2 N" "6" "2" "N" 6 2 .N
      (by rfl) (by rfl) (by rfl) (by rfl)).1.mpr (by decide),
   (parsePosition_bounds_check ⟨5, 5⟩ "5 5 N" "5" "5" "N" 5 5 .N
      (by rfl) (by rfl) (by rfl) (by rfl)).2 (by decide)⟩

end MarsRover
